import Mathlib

/-!
Verification of the metalnet route realization engine and dataplane
translation layer.

The development shallowly embeds two Go source files:

* `metalbond/metalbond_client.go` — the peering-aware route fan-out
  (`AddRoute`, `RemoveRoute`, `addLocalRoute`, `removeLocalRoute`) and the
  reconciliation sweep (`CleanupNotPeeredRoutes`).  The dataplane client is
  modelled as an oracle (`Backend`) answering each issued call with either
  success or an error message; each engine operation returns the list of
  dataplane calls it issued together with its error outcome, mirroring the
  Go control flow statement by statement.
* `dpdk/client.go` — the stateless translation layer mapping abstract
  network objects to RPC request/response messages, with backend status
  code checking and response address parsing.

Machine integers (VNIs, address bits, ports, status codes) are modelled as
`Nat`; the Go code performs no arithmetic on them, only comparisons, so no
overflow modelling is needed.  IP addresses are a version tag plus numeric
value; `netip.ParseAddr` (an external library function at the RPC
boundary) is modelled for IPv4 dotted-quad text, returning `none` on
anything else.
-/

namespace Metalnet

/-- IP address family, mirroring the version tag carried by `netip.Addr`
and the metalbond `IPVersion` values. -/
inductive IPVersion where
  | v4
  | v6
deriving DecidableEq, Repr

/-- Bit width of an address family. -/
def IPVersion.width : IPVersion → Nat
  | .v4 => 32
  | .v6 => 128

/-- An IP address: family tag plus numeric value of the address bits. -/
structure IPAddr where
  version : IPVersion
  bits : Nat
deriving DecidableEq, Repr

/-- A CIDR block (`netip.Prefix` / `net.IPNet`): base address and mask
length. -/
structure IPPrefix where
  addr : IPAddr
  length : Nat
deriving DecidableEq, Repr

/-- Containment test of an address in a CIDR block, as performed by
`net.IPNet.Contains` and `netip.Prefix.Contains`: the families must match
and the top `length` bits of both addresses must agree. -/
def IPPrefix.contains (p : IPPrefix) (a : IPAddr) : Bool :=
  decide (p.addr.version = a.version ∧
    a.bits / 2 ^ (p.addr.version.width - p.length) =
      p.addr.bits / 2 ^ (p.addr.version.width - p.length))

/-- The metalbond next-hop kind tag (`mbproto.NextHopType`). -/
inductive NextHopType where
  | standard
  | loadbalancerTarget
  | nat
deriving DecidableEq, Repr

/-- A metalbond route destination (`mb.Destination`): the announced IP
version and the destination prefix. -/
structure Destination where
  ipVersion : IPVersion
  pfx : IPPrefix
deriving DecidableEq, Repr

/-- A metalbond next hop (`mb.NextHop`): kind tag, underlay target
address, and the NAT port range used by NAT-kind hops. -/
structure NextHop where
  type : NextHopType
  targetAddress : IPAddr
  natPortRangeFrom : Nat
  natPortRangeTo : Nat
deriving DecidableEq, Repr

/-- Client configuration (`metalbond.ClientOptions`). -/
structure ClientOptions where
  ipv4Only : Bool
  preferredNetwork : Option IPPrefix
deriving DecidableEq

/-- Read interface of the external topology cache
(`internal.MetalnetCache`).  `peerVnis vni = none` models the ok-flag
being false (VNI unknown, accessors then return an empty set);
`peeredPrefixes` returns, when configured for a VNI, an association list
from peer VNI to its prefix allow-list; `loadBalancerServer` resolves a
(VNI, destination address) pair to a load balancer id.  The cache key for
load balancers is the string form of the address in Go; the string
rendering is injective on valid addresses so the address value itself is
used as the key here. -/
structure MetalnetCache where
  peerVnis : Nat → Option (List Nat)
  peeredPrefixes : Nat → Option (List (Nat × List IPPrefix))
  loadBalancerServer : Nat → IPAddr → Option String

/-- One dataplane mutation issued through the dpservice client, carrying
exactly the arguments the Go call sites pass.  `deleteRoute` carries only
the table VNI and the destination prefix because the client delete call
`DeleteRoute(ctx, vni, prefix, ...)` takes no next-hop argument. -/
inductive DpdkCall where
  | createRoute (tableVni : Nat) (dst : IPPrefix) (nhVni : Nat) (nhAddr : IPAddr)
  | deleteRoute (tableVni : Nat) (dst : IPPrefix)
  | createLBTarget (lbId : String) (targetIP : IPAddr)
  | deleteLBTarget (lbId : String) (targetIP : IPAddr)
  | createNat (natIP : IPAddr) (vni : Nat) (minPort : Nat) (maxPort : Nat) (underlay : IPAddr)
  | deleteNat (natIP : IPAddr) (vni : Nat) (minPort : Nat) (maxPort : Nat) (underlay : IPAddr)
deriving DecidableEq, Repr

/-- Dataplane backend oracle: answers each issued call with `none`
(success, including the per-call ignored status codes already absorbed by
the client wrapper) or `some msg` (a surfaced error). -/
def Backend : Type := DpdkCall → Option String

/-- The always-succeeding backend. -/
def bkOK : Backend := fun _ => none

/-- Issue one dataplane call: record it and wrap any backend error with
the call-site message prefix (the Go `fmt.Errorf("...: %w", err)`). -/
def issueCall (bk : Backend) (c : DpdkCall) (pre : String) :
    List DpdkCall × Option String :=
  ([c], (bk c).map (fun e => pre ++ e))

/-- Error list contributed by one realization attempt (Go appends
`err.Error()` to `errStrs` when the attempt returned non-nil). -/
def optErrList : Option String → List String
  | none => []
  | some e => [e]

/-- Embedding of `MetalnetClient.addLocalRoute(destVni, vni, dest, hop)`:
realize a route add into table `vni`, with `destVni` the announcing VNI
used as the next-hop VNI of an installed standard route.  Returns the
issued calls and the error outcome. -/
def addLocalRoute (cfg : ClientOptions) (cache : MetalnetCache) (bk : Backend)
    (destVni vni : Nat) (dest : Destination) (hop : NextHop) :
    List DpdkCall × Option String :=
  if cfg.ipv4Only = true ∧ dest.ipVersion ≠ IPVersion.v4 then
    ([], some "received non-IPv4 route will not be installed in kernel route table (IPv4-only mode)")
  else if hop.type = NextHopType.loadbalancerTarget then
    match cache.loadBalancerServer vni dest.pfx.addr with
    | none => ([], some "no registered LoadBalancer on this client for vni and ip")
    | some uid =>
      match cfg.preferredNetwork with
      | some pn =>
        if pn.contains hop.targetAddress = false then
          ([], none)
        else
          issueCall bk (.createLBTarget uid hop.targetAddress) "error creating lb target: "
      | none =>
        issueCall bk (.createLBTarget uid hop.targetAddress) "error creating lb target: "
  else if hop.type = NextHopType.nat then
    issueCall bk
      (.createNat dest.pfx.addr vni hop.natPortRangeFrom hop.natPortRangeTo hop.targetAddress)
      "error nat route: "
  else
    issueCall bk (.createRoute vni dest.pfx destVni hop.targetAddress)
      "error creating route: "

/-- Embedding of `MetalnetClient.removeLocalRoute(destVni, vni, dest,
hop)`: realize a route removal from table `vni`.  Note that, unlike the
add path, the load-balancer branch consults no preferred-network filter,
and the standard-route branch issues `DeleteRoute(vni, dest.Prefix)` with
no next-hop component. -/
def removeLocalRoute (cfg : ClientOptions) (cache : MetalnetCache) (bk : Backend)
    (destVni vni : Nat) (dest : Destination) (hop : NextHop) :
    List DpdkCall × Option String :=
  if cfg.ipv4Only = true ∧ dest.ipVersion ≠ IPVersion.v4 then
    ([], some "received non-IPv4 route will not be installed in kernel route table (IPv4-only mode)")
  else if hop.type = NextHopType.loadbalancerTarget then
    match cache.loadBalancerServer vni dest.pfx.addr with
    | none => ([], some "no registered LoadBalancer on this client for vni and ip")
    | some uid =>
      issueCall bk (.deleteLBTarget uid hop.targetAddress) "error deleting lb target: "
  else if hop.type = NextHopType.nat then
    issueCall bk
      (.deleteNat dest.pfx.addr vni hop.natPortRangeFrom hop.natPortRangeTo hop.targetAddress)
      "error deleting nat route: "
  else
    issueCall bk (.deleteRoute vni dest.pfx) "error deleting route: "

/-- The per-peer allow decision computed inside the `AddRoute` peer loop:
default `true`; when the cache has peered prefixes configured for the
announcing VNI and the map has an entry for this peer, allow only if the
destination address lies in one of the listed prefixes. -/
def addRouteFlag (cache : MetalnetCache) (vni : Nat) (dest : Destination)
    (peer : Nat) : Bool :=
  match cache.peeredPrefixes vni with
  | none => true
  | some m =>
    match m.lookup peer with
    | none => true
    | some allowed => allowed.any (fun q => q.contains dest.pfx.addr)

/-- The peer loop of `AddRoute`: for each peered VNI, realize the add into
it when the peered-prefix decision allows it, accumulating issued calls
and error strings in loop order. -/
def addPeerLoop (cfg : ClientOptions) (cache : MetalnetCache) (bk : Backend)
    (vni : Nat) (dest : Destination) (hop : NextHop) :
    List Nat → List DpdkCall × List String
  | [] => ([], [])
  | peer :: rest =>
    let contrib :=
      if addRouteFlag cache vni dest peer = true then
        addLocalRoute cfg cache bk vni peer dest hop
      else
        ([], none)
    let restRes := addPeerLoop cfg cache bk vni dest hop rest
    (contrib.1 ++ restRes.1, optErrList contrib.2 ++ restRes.2)

/-- Embedding of `MetalnetClient.AddRoute` up to the final error join:
realize locally, then, for a standard next hop, fan out over the cached
peer set.  Returns the issued calls and the collected error strings. -/
def addRouteRun (cfg : ClientOptions) (cache : MetalnetCache) (bk : Backend)
    (vni : Nat) (dest : Destination) (hop : NextHop) :
    List DpdkCall × List String :=
  let locRes := addLocalRoute cfg cache bk vni vni dest hop
  let peerRes :=
    if hop.type = NextHopType.standard then
      addPeerLoop cfg cache bk vni dest hop ((cache.peerVnis vni).getD [])
    else
      ([], [])
  (locRes.1 ++ peerRes.1, optErrList locRes.2 ++ peerRes.2)

/-- The final error aggregation of `AddRoute` and `RemoveRoute`:
`errors.New(strings.Join(errStrs, "\n"))` when any error string was
collected, nil otherwise. -/
def joinErrs (errs : List String) : Option String :=
  if errs = [] then none else some (String.intercalate "\n" errs)

/-- Embedding of `MetalnetClient.AddRoute(vni, dest, hop)`: the issued
dataplane calls and the returned error. -/
def AddRoute (cfg : ClientOptions) (cache : MetalnetCache) (bk : Backend)
    (vni : Nat) (dest : Destination) (hop : NextHop) :
    List DpdkCall × Option String :=
  let r := addRouteRun cfg cache bk vni dest hop
  (r.1, joinErrs r.2)

/-- The peer loop of `RemoveRoute`: iterate over all cached peers and,
for a standard next hop, realize the removal into each one —
unconditionally, with no peered-prefix consultation. -/
def removePeerLoop (cfg : ClientOptions) (cache : MetalnetCache) (bk : Backend)
    (vni : Nat) (dest : Destination) (hop : NextHop) :
    List Nat → List DpdkCall × List String
  | [] => ([], [])
  | peer :: rest =>
    let contrib :=
      if hop.type = NextHopType.standard then
        removeLocalRoute cfg cache bk vni peer dest hop
      else
        ([], none)
    let restRes := removePeerLoop cfg cache bk vni dest hop rest
    (contrib.1 ++ restRes.1, optErrList contrib.2 ++ restRes.2)

/-- Embedding of `MetalnetClient.RemoveRoute` up to the final error
join. -/
def removeRouteRun (cfg : ClientOptions) (cache : MetalnetCache) (bk : Backend)
    (vni : Nat) (dest : Destination) (hop : NextHop) :
    List DpdkCall × List String :=
  let locRes := removeLocalRoute cfg cache bk vni vni dest hop
  let peerRes := removePeerLoop cfg cache bk vni dest hop ((cache.peerVnis vni).getD [])
  (locRes.1 ++ peerRes.1, optErrList locRes.2 ++ peerRes.2)

/-- Embedding of `MetalnetClient.RemoveRoute(vni, dest, hop)`. -/
def RemoveRoute (cfg : ClientOptions) (cache : MetalnetCache) (bk : Backend)
    (vni : Nat) (dest : Destination) (hop : NextHop) :
    List DpdkCall × Option String :=
  let r := removeRouteRun cfg cache bk vni dest hop
  (r.1, joinErrs r.2)

/-- One route as returned by the dataplane listing `ListRoutes(vni)`:
destination prefix and next hop. -/
structure RouteItem where
  pfx : IPPrefix
  nhVni : Nat
  nhAddr : IPAddr
deriving DecidableEq, Repr

/-- The deletion condition of the cleanup loop, exactly as written in the
source: `route.Spec.NextHop.VNI != vni && (ok && !set.Has(...))`. -/
def cleanupCond (vni : Nat) (set : List Nat) (ok : Bool) (r : RouteItem) : Bool :=
  decide (r.nhVni ≠ vni) && (ok && !(set.contains r.nhVni))

/-- The loop body of `CleanupNotPeeredRoutes`: walk the listed routes in
order, deleting each one matching the condition; a failing delete returns
its wrapped error immediately, leaving the remaining routes
unexamined. -/
def cleanupLoop (bk : Backend) (vni : Nat) (set : List Nat) (ok : Bool) :
    List RouteItem → List DpdkCall × Option String
  | [] => ([], none)
  | r :: rest =>
    if cleanupCond vni set ok r = true then
      match bk (.deleteRoute vni r.pfx) with
      | some e => ([.deleteRoute vni r.pfx], some ("error deleting route: " ++ e))
      | none =>
        let restRes := cleanupLoop bk vni set ok rest
        (DpdkCall.deleteRoute vni r.pfx :: restRes.1, restRes.2)
    else
      cleanupLoop bk vni set ok rest

/-- Embedding of `MetalnetClient.CleanupNotPeeredRoutes(vni)` given the
route listing the dataplane returned for `vni`: read the peer set
(value and ok flag) from the cache and run the deletion loop. -/
def CleanupNotPeeredRoutes (cache : MetalnetCache) (bk : Backend) (vni : Nat)
    (routes : List RouteItem) : List DpdkCall × Option String :=
  cleanupLoop bk vni ((cache.peerVnis vni).getD []) (cache.peerVnis vni).isSome routes

/-- Key identifying a route slot in a dataplane table: (table VNI,
destination prefix) — the pair the delete call is keyed by. -/
abbrev RouteKey : Type := Nat × IPPrefix

/-- The value stored at a route slot: the next hop. -/
structure RouteVal where
  nhVni : Nat
  nhAddr : IPAddr
deriving DecidableEq, Repr

/-- The dataplane route tables, as a finite map from route key to next
hop (association list). -/
abbrev RouteTable : Type := List (RouteKey × RouteVal)

/-- Lookup of a route key in the tables. -/
def lookupRoute (st : RouteTable) (k : RouteKey) : Option RouteVal :=
  match st with
  | [] => none
  | e :: rest => if e.1 = k then some e.2 else lookupRoute rest k

/-- Effect of a successful `CreateRoute` with `ROUTE_EXISTS` ignored: a
no-op when the key is present, an insertion otherwise. -/
def insertRoute (st : RouteTable) (k : RouteKey) (v : RouteVal) : RouteTable :=
  if (lookupRoute st k).isSome then st else (k, v) :: st

/-- Effect of a successful `DeleteRoute` with `ROUTE_NOT_FOUND` ignored:
remove any entry at the key. -/
def eraseRouteKey (st : RouteTable) (k : RouteKey) : RouteTable :=
  match st with
  | [] => []
  | e :: rest => if e.1 = k then eraseRouteKey rest k else e :: eraseRouteKey rest k

/-- Effect of one dataplane call on the route tables.  Load-balancer and
NAT calls target other dataplane primitives and leave the route tables
unchanged. -/
def applyCall (st : RouteTable) : DpdkCall → RouteTable
  | .createRoute tableVni dst nhV nhA => insertRoute st (tableVni, dst) ⟨nhV, nhA⟩
  | .deleteRoute tableVni dst => eraseRouteKey st (tableVni, dst)
  | _ => st

/-- Effect of a call sequence on the route tables. -/
def applyTrace (st : RouteTable) (tr : List DpdkCall) : RouteTable :=
  tr.foldl applyCall st

/-- Modelled from the spec: the propagation decision for one peer as the
specification words it — propagate unconditionally when no peered-prefix
allow-list is configured for the peer (default-allow), and otherwise only
when the destination address falls within at least one listed prefix
(default-deny once a filter exists). -/
def specAllows (cache : MetalnetCache) (vni : Nat) (dest : Destination)
    (peer : Nat) : Bool :=
  match cache.peeredPrefixes vni with
  | none => true
  | some m =>
    match m.lookup peer with
    | none => true
    | some allowed => allowed.any (fun q => q.contains dest.pfx.addr)

/-- Backend status carried by every dataplane RPC response (`Status`
message): numeric code (0 = success) and message. -/
structure DpStatus where
  error : Nat
  message : String
deriving DecidableEq, Repr

/-- Errors produced by the translation layer: a typed status error for a
non-zero backend code, or a parse error for a syntactically invalid
address in a response. -/
inductive ClientError where
  | statusError (code : Nat) (message : String)
  | parseError (message : String)
deriving DecidableEq, Repr

/-- Split a character list at every dot (the grouping `strings.Split`
performs on the dotted-quad form). -/
def splitDots : List Char → List (List Char)
  | [] => [[]]
  | c :: rest =>
    let r := splitDots rest
    if c = '.' then [] :: r
    else
      match r with
      | [] => [[c]]
      | g :: gs => (c :: g) :: gs

/-- Parse one decimal octet of a dotted-quad address: one to three
digits, value at most 255, no leading zero (as `netip` requires). -/
def parseDecOctet : List Char → Option Nat
  | [] => none
  | '0' :: _ :: _ => none
  | cs =>
    if 3 < cs.length then none
    else if cs.all Char.isDigit then
      let n := cs.foldl (fun acc c => acc * 10 + (c.toNat - 48)) 0
      if n ≤ 255 then some n else none
    else none

/-- Parse an IPv4 dotted-quad address. -/
def parseIPv4 (s : String) : Option IPAddr :=
  match splitDots s.toList with
  | [a, b, c, d] =>
    match parseDecOctet a, parseDecOctet b, parseDecOctet c, parseDecOctet d with
    | some na, some nb, some nc, some nd =>
      some ⟨IPVersion.v4, ((na * 256 + nb) * 256 + nc) * 256 + nd⟩
    | _, _, _, _ => none
  | _ => none

/-- Model of the external `netip.ParseAddr` at the RPC boundary,
restricted to IPv4 dotted-quad text; IPv6 textual forms are outside this
model and parse to `none` (anything that is not a well-formed dotted
quad is rejected, as `netip.ParseAddr` rejects malformed input). -/
def parseAddr (s : String) : Option IPAddr :=
  parseIPv4 s

/-- The wire `Interface` message of a backend response
(`dpdkproto.Interface`): address fields are byte strings. -/
structure ProtoInterface where
  interfaceID : String
  vni : Nat
  pciDpName : String
  primaryIPv4Address : String
  primaryIPv6Address : String
  underlayRoute : String
deriving DecidableEq, Repr

/-- The abstract interface spec reconstructed from a response. -/
structure InterfaceSpec where
  vni : Nat
  device : String
  primaryIPv4Address : IPAddr
  primaryIPv6Address : IPAddr
deriving DecidableEq, Repr

/-- The abstract interface status reconstructed from a response. -/
structure InterfaceStatus where
  underlayRoute : IPAddr
deriving DecidableEq, Repr

/-- The abstract `Interface` object of the translation layer. -/
structure Interface where
  uid : String
  spec : InterfaceSpec
  status : InterfaceStatus
deriving DecidableEq, Repr

/-- Embedding of `dpdkInterfaceToInterface`: parse the address fields of
a wire interface back into the abstract object.  The second parse mirrors
the source line for the primary IPv6 address, which reads
`GetPrimaryIPv4Address()` again. -/
def dpdkInterfaceToInterface (d : ProtoInterface) : Except ClientError Interface :=
  match parseAddr d.primaryIPv4Address with
  | none => .error (.parseError "error parsing primary ipv4 address")
  | some a4 =>
    match parseAddr d.primaryIPv4Address with
    | none => .error (.parseError "error parsing primary ipv6 address")
    | some a6 =>
      match parseAddr d.underlayRoute with
      | none => .error (.parseError "error parsing underlay route")
      | some ur =>
        .ok
          { uid := d.interfaceID
            spec :=
              { vni := d.vni
                device := d.pciDpName
                primaryIPv4Address := a4
                primaryIPv6Address := a6 }
            status := { underlayRoute := ur } }

/-- Response of the `GetInterface` RPC: status plus the wire interface. -/
structure GetInterfaceResponse where
  status : DpStatus
  iface : ProtoInterface
deriving DecidableEq, Repr

/-- Embedding of `client.GetInterface` applied to the RPC response it
received: non-zero status becomes a typed status error, otherwise the
wire interface is parsed back. -/
def GetInterface (res : GetInterfaceResponse) : Except ClientError Interface :=
  if res.status.error ≠ 0 then
    .error (.statusError res.status.error res.status.message)
  else
    dpdkInterfaceToInterface res.iface

/-- Response of the `CreateInterface` RPC: status plus the assigned
underlay route. -/
structure CreateInterfaceResponse where
  status : DpStatus
  underlayRoute : String
deriving DecidableEq, Repr

/-- Embedding of `client.CreateInterface` applied to its response:
status check, then parse of the returned underlay route, merged with the
caller-supplied metadata and spec. -/
def CreateInterface (ifaceArg : Interface) (res : CreateInterfaceResponse) :
    Except ClientError Interface :=
  if res.status.error ≠ 0 then
    .error (.statusError res.status.error res.status.message)
  else
    match parseAddr res.underlayRoute with
    | none => .error (.parseError "error parsing underlay route")
    | some ur =>
      .ok { uid := ifaceArg.uid, spec := ifaceArg.spec, status := { underlayRoute := ur } }

/-- Embedding of `client.DeleteInterface` applied to its response (a bare
status message). -/
def DeleteInterface (res : DpStatus) : Except ClientError Unit :=
  if res.error ≠ 0 then .error (.statusError res.error res.message) else .ok ()

/-- The abstract virtual IP object. -/
structure VirtualIP where
  interfaceUID : String
  address : IPAddr
deriving DecidableEq, Repr

/-- Response of the `GetInterfaceVIP` RPC: status plus the address byte
string. -/
structure VIPResponse where
  status : DpStatus
  address : String
deriving DecidableEq, Repr

/-- Embedding of `dpdkVirtualIPToVirtualIP`: parse the response address
back. -/
def dpdkVirtualIPToVirtualIP (interfaceUID : String) (address : String) :
    Except ClientError VirtualIP :=
  match parseAddr address with
  | none => .error (.parseError "error parsing virtual ip address")
  | some a => .ok { interfaceUID := interfaceUID, address := a }

/-- Embedding of `client.GetVirtualIP` applied to its response. -/
def GetVirtualIP (interfaceUID : String) (res : VIPResponse) :
    Except ClientError VirtualIP :=
  if res.status.error ≠ 0 then
    .error (.statusError res.status.error res.status.message)
  else
    dpdkVirtualIPToVirtualIP interfaceUID res.address

/-- A response carrying only a nested status (used by the RPCs whose
payload the client does not read back). -/
structure StatusResponse where
  status : DpStatus
deriving DecidableEq, Repr

/-- Embedding of `client.CreateVirtualIP` applied to its response: status
check, then the argument is returned unchanged. -/
def CreateVirtualIP (vip : VirtualIP) (res : StatusResponse) :
    Except ClientError VirtualIP :=
  if res.status.error ≠ 0 then
    .error (.statusError res.status.error res.status.message)
  else
    .ok vip

/-- Embedding of `client.DeleteVirtualIP` applied to its response. -/
def DeleteVirtualIP (res : DpStatus) : Except ClientError Unit :=
  if res.error ≠ 0 then .error (.statusError res.error res.message) else .ok ()

/-- The wire `Prefix` message: address byte string and mask length. -/
structure ProtoPrefix where
  address : String
  prefixLength : Nat
deriving DecidableEq, Repr

/-- The abstract alias-prefix object. -/
structure PrefixObj where
  interfaceUID : String
  pfx : IPPrefix
deriving DecidableEq, Repr

/-- Embedding of `dpdkPrefixToPrefix`: parse the address, then form the
prefix of the given length (`netip.Addr.Prefix`), which fails when the
length exceeds the address width and otherwise masks the low bits. -/
def dpdkPrefixToPrefix (interfaceUID : String) (d : ProtoPrefix) :
    Except ClientError PrefixObj :=
  match parseAddr d.address with
  | none => .error (.parseError "error parsing dpdk prefix address")
  | some a =>
    if a.version.width < d.prefixLength then
      .error (.parseError "invalid dpdk prefix length for address")
    else
      .ok
        { interfaceUID := interfaceUID
          pfx :=
            { addr :=
                { version := a.version
                  bits :=
                    a.bits / 2 ^ (a.version.width - d.prefixLength) *
                      2 ^ (a.version.width - d.prefixLength) }
              length := d.prefixLength } }

/-- Response of the `ListInterfacePrefixes` RPC: the backend status and
the listed wire prefixes. -/
structure ListPrefixesResponse where
  status : DpStatus
  prefixes : List ProtoPrefix
deriving DecidableEq, Repr

/-- Conversion of all listed wire prefixes, failing on the first parse
error (the loop body of `ListPrefixes`). -/
def convertedList (interfaceUID : String) :
    List ProtoPrefix → Except ClientError (List PrefixObj)
  | [] => .ok []
  | d :: rest =>
    match dpdkPrefixToPrefix interfaceUID d with
    | .error e => .error e
    | .ok p =>
      match convertedList interfaceUID rest with
      | .error e => .error e
      | .ok ps => .ok (p :: ps)

/-- Embedding of `client.ListPrefixes` applied to its response.  The
source inspects only the prefix payload: the response status field is
never read on this path. -/
def ListPrefixes (interfaceUID : String) (res : ListPrefixesResponse) :
    Except ClientError (List PrefixObj) :=
  convertedList interfaceUID res.prefixes

/-- Embedding of `client.CreatePrefix` applied to its response. -/
def CreatePrefix (p : PrefixObj) (res : StatusResponse) :
    Except ClientError PrefixObj :=
  if res.status.error ≠ 0 then
    .error (.statusError res.status.error res.status.message)
  else
    .ok p

/-- Embedding of `client.DeletePrefix` applied to its response. -/
def DeletePrefix (res : DpStatus) : Except ClientError Unit :=
  if res.error ≠ 0 then .error (.statusError res.error res.message) else .ok ()

/-- The translation-layer route next hop. -/
structure TLNextHop where
  vni : Nat
  address : IPAddr
deriving DecidableEq, Repr

/-- The translation-layer route spec. -/
structure TLRouteSpec where
  dst : IPPrefix
  nextHop : TLNextHop
deriving DecidableEq, Repr

/-- The translation-layer `Route` object: metadata VNI plus spec. -/
structure TLRoute where
  vni : Nat
  spec : TLRouteSpec
deriving DecidableEq, Repr

/-- The wire `Prefix` message built from an abstract prefix (address
rendered at the value level). -/
structure ProtoPrefixMsg where
  ipVersion : IPVersion
  address : IPAddr
  prefixLength : Nat
deriving DecidableEq, Repr

/-- The wire `Route` message built for the add/delete route RPCs. -/
structure ProtoRouteMsg where
  ipVersion : IPVersion
  weight : Nat
  pfxMsg : ProtoPrefixMsg
  nexthopVNI : Nat
  nexthopAddress : IPAddr
deriving DecidableEq, Repr

/-- The wire `VNIRouteMsg` envelope. -/
structure VNIRouteMsg where
  vni : Nat
  route : ProtoRouteMsg
deriving DecidableEq, Repr

/-- The request message built by both `client.CreateRoute` and
`client.DeleteRoute` from a translation-layer route: the full route,
including the next-hop VNI and next-hop address. -/
def routeToVNIRouteMsg (r : TLRoute) : VNIRouteMsg :=
  { vni := r.vni
    route :=
      { ipVersion := r.spec.nextHop.address.version
        weight := 100
        pfxMsg :=
          { ipVersion := r.spec.dst.addr.version
            address := r.spec.dst.addr
            prefixLength := r.spec.dst.length }
        nexthopVNI := r.spec.nextHop.vni
        nexthopAddress := r.spec.nextHop.address } }

/-- Embedding of the translation-layer `client.CreateRoute` applied to
its response (a bare status message): status check, then the argument is
returned. -/
def CreateRouteTL (r : TLRoute) (res : DpStatus) : Except ClientError TLRoute :=
  if res.error ≠ 0 then .error (.statusError res.error res.message) else .ok r

/-- Embedding of the translation-layer `client.DeleteRoute` applied to
its response. -/
def DeleteRouteTL (res : DpStatus) : Except ClientError Unit :=
  if res.error ≠ 0 then .error (.statusError res.error res.message) else .ok ()

/-- Staleness of a listed route during cleanup, as the amended claim
words it: when the cache has a peer set for the VNI, a route is stale iff
its next-hop VNI differs from the local VNI and is not in the peer set;
when the peer set is absent, no route is stale (nothing is deleted). -/
def specStale (cache : MetalnetCache) (vni : Nat) (r : RouteItem) : Bool :=
  match cache.peerVnis vni with
  | none => false
  | some set => decide (r.nhVni ≠ vni) && !(set.contains r.nhVni)

/-- The route-table key a dataplane call addresses, if any. -/
def callKey : DpdkCall → Option RouteKey
  | .createRoute tableVni dst _ _ => some (tableVni, dst)
  | .deleteRoute tableVni dst => some (tableVni, dst)
  | _ => none

/-- Whether a dataplane call is a route deletion. -/
def isDeleteCall : DpdkCall → Prop
  | .deleteRoute _ _ => True
  | _ => False

/-- Example prefix 10.0.0.0/24. -/
def exPfx10 : IPPrefix := ⟨⟨IPVersion.v4, 167772160⟩, 24⟩

/-- Example prefix 10.0.0.5/32. -/
def exPfx5 : IPPrefix := ⟨⟨IPVersion.v4, 167772165⟩, 32⟩

/-- Example prefix 192.168.1.1/32. -/
def exPfx192 : IPPrefix := ⟨⟨IPVersion.v4, 3232235777⟩, 32⟩

/-- Example destination 10.0.0.5/32. -/
def exDest5 : Destination := ⟨IPVersion.v4, exPfx5⟩

/-- Example destination 192.168.1.1/32. -/
def exDest192 : Destination := ⟨IPVersion.v4, exPfx192⟩

/-- Example standard next hop. -/
def exHopStd : NextHop := ⟨NextHopType.standard, ⟨IPVersion.v4, 55⟩, 0, 0⟩

/-- Example configuration: no IPv4-only, no preferred network. -/
def exCfg : ClientOptions := ⟨false, none⟩

/-- Example topology of the fan-out examples: VNI 100 peered with VNI 200
(no allow-list entry) and VNI 300 (allow-list 10.0.0.0/24); no load
balancers. -/
def exCache : MetalnetCache :=
  ⟨fun v => if v = 100 then some [200, 300] else none,
   fun v => if v = 100 then some [(300, [exPfx10])] else none,
   fun _ _ => none⟩

/-- Example configuration with preferred network 10.0.0.0/24. -/
def exCfgPN : ClientOptions := ⟨false, some exPfx10⟩

/-- Example topology with a load balancer registered for
(VNI 100, address 10.0.0.5). -/
def exCacheLB : MetalnetCache :=
  ⟨fun _ => none,
   fun _ => none,
   fun v a => if v = 100 ∧ a = exPfx5.addr then some "lb-1" else none⟩

/-- Example load-balancer-target next hop whose target address
192.168.1.1 lies outside the preferred network 10.0.0.0/24. -/
def exHopLBout : NextHop :=
  ⟨NextHopType.loadbalancerTarget, ⟨IPVersion.v4, 3232235777⟩, 0, 0⟩

/-- Backend failing exactly the route creation into VNI 200. -/
def exBkFail : Backend := fun c =>
  match c with
  | .createRoute 200 _ _ _ => some "boom"
  | _ => none

/-- Backend failing exactly the route deletions keyed at prefix
192.168.1.1/32. -/
def exBkDelFail : Backend := fun c =>
  match c with
  | .deleteRoute _ q => if q = exPfx192 then some "boom" else none
  | _ => none

/-- Example initial route tables: VNI 300 already holds a route for
192.168.1.1/32 towards next-hop VNI 999. -/
def exSt0 : RouteTable := [((300, exPfx192), ⟨999, ⟨IPVersion.v4, 7⟩⟩)]

/-- Example topology cache that knows no VNI at all. -/
def exCacheAbsent : MetalnetCache := ⟨fun _ => none, fun _ => none, fun _ _ => none⟩

/-- The calls issued by one add realization do not depend on the backend
answers. -/
theorem addLocalRoute_fst_indep (cfg : ClientOptions) (cache : MetalnetCache)
    (b₁ b₂ : Backend) (destVni vni : Nat) (dest : Destination) (hop : NextHop) :
    (addLocalRoute cfg cache b₁ destVni vni dest hop).1 =
      (addLocalRoute cfg cache b₂ destVni vni dest hop).1 := by
  unfold addLocalRoute
  repeat' split
  all_goals rfl

/-- The calls issued by one remove realization do not depend on the
backend answers. -/
theorem removeLocalRoute_fst_indep (cfg : ClientOptions) (cache : MetalnetCache)
    (b₁ b₂ : Backend) (destVni vni : Nat) (dest : Destination) (hop : NextHop) :
    (removeLocalRoute cfg cache b₁ destVni vni dest hop).1 =
      (removeLocalRoute cfg cache b₂ destVni vni dest hop).1 := by
  unfold removeLocalRoute
  repeat' split
  all_goals rfl

/-- The calls issued by the add-side peer loop do not depend on the
backend answers. -/
theorem addPeerLoop_fst_indep (cfg : ClientOptions) (cache : MetalnetCache)
    (b₁ b₂ : Backend) (vni : Nat) (dest : Destination) (hop : NextHop) :
    ∀ l : List Nat,
      (addPeerLoop cfg cache b₁ vni dest hop l).1 =
        (addPeerLoop cfg cache b₂ vni dest hop l).1
  | [] => rfl
  | peer :: rest => by
    simp only [addPeerLoop]
    have ih := addPeerLoop_fst_indep cfg cache b₁ b₂ vni dest hop rest
    have hl := addLocalRoute_fst_indep cfg cache b₁ b₂ vni peer dest hop
    split <;> simp only [ih, hl]

/-- The calls issued by the remove-side peer loop do not depend on the
backend answers. -/
theorem removePeerLoop_fst_indep (cfg : ClientOptions) (cache : MetalnetCache)
    (b₁ b₂ : Backend) (vni : Nat) (dest : Destination) (hop : NextHop) :
    ∀ l : List Nat,
      (removePeerLoop cfg cache b₁ vni dest hop l).1 =
        (removePeerLoop cfg cache b₂ vni dest hop l).1
  | [] => rfl
  | peer :: rest => by
    simp only [removePeerLoop]
    have ih := removePeerLoop_fst_indep cfg cache b₁ b₂ vni dest hop rest
    have hl := removeLocalRoute_fst_indep cfg cache b₁ b₂ vni peer dest hop
    split <;> simp only [ih, hl]

/-- The calls issued by `AddRoute` do not depend on the backend
answers. -/
theorem addRoute_fst_indep (cfg : ClientOptions) (cache : MetalnetCache)
    (b₁ b₂ : Backend) (vni : Nat) (dest : Destination) (hop : NextHop) :
    (AddRoute cfg cache b₁ vni dest hop).1 = (AddRoute cfg cache b₂ vni dest hop).1 := by
  simp only [AddRoute, addRouteRun]
  have hl := addLocalRoute_fst_indep cfg cache b₁ b₂ vni vni dest hop
  have hp := addPeerLoop_fst_indep cfg cache b₁ b₂ vni dest hop
    ((cache.peerVnis vni).getD [])
  split <;> simp only [hl, hp]

/-- The calls issued by `RemoveRoute` do not depend on the backend
answers. -/
theorem removeRoute_fst_indep (cfg : ClientOptions) (cache : MetalnetCache)
    (b₁ b₂ : Backend) (vni : Nat) (dest : Destination) (hop : NextHop) :
    (RemoveRoute cfg cache b₁ vni dest hop).1 =
      (RemoveRoute cfg cache b₂ vni dest hop).1 := by
  simp only [RemoveRoute, removeRouteRun]
  have hl := removeLocalRoute_fst_indep cfg cache b₁ b₂ vni vni dest hop
  have hp := removePeerLoop_fst_indep cfg cache b₁ b₂ vni dest hop
    ((cache.peerVnis vni).getD [])
  simp only [hl, hp]

/-- On a standard next hop, when the IPv4-only guard does not fire, one
add realization is exactly one `CreateRoute` call. -/
theorem addLocalRoute_standard (cfg : ClientOptions) (cache : MetalnetCache)
    (bk : Backend) (destVni vni : Nat) (dest : Destination) (hop : NextHop)
    (hstd : hop.type = NextHopType.standard)
    (hb : ¬(cfg.ipv4Only = true ∧ dest.ipVersion ≠ IPVersion.v4)) :
    addLocalRoute cfg cache bk destVni vni dest hop =
      issueCall bk (.createRoute vni dest.pfx destVni hop.targetAddress)
        "error creating route: " := by
  rw [addLocalRoute, if_neg hb, if_neg (by rw [hstd]; exact fun h => nomatch h),
    if_neg (by rw [hstd]; exact fun h => nomatch h)]

/-- On a standard next hop, when the IPv4-only guard does not fire, one
remove realization is exactly one `DeleteRoute` call keyed by the table
VNI and the destination prefix. -/
theorem removeLocalRoute_standard (cfg : ClientOptions) (cache : MetalnetCache)
    (bk : Backend) (destVni vni : Nat) (dest : Destination) (hop : NextHop)
    (hstd : hop.type = NextHopType.standard)
    (hb : ¬(cfg.ipv4Only = true ∧ dest.ipVersion ≠ IPVersion.v4)) :
    removeLocalRoute cfg cache bk destVni vni dest hop =
      issueCall bk (.deleteRoute vni dest.pfx) "error deleting route: " := by
  rw [removeLocalRoute, if_neg hb, if_neg (by rw [hstd]; exact fun h => nomatch h),
    if_neg (by rw [hstd]; exact fun h => nomatch h)]

/-- When the IPv4-only guard fires, an add realization issues no call and
fails. -/
theorem addLocalRoute_blocked (cfg : ClientOptions) (cache : MetalnetCache)
    (bk : Backend) (destVni vni : Nat) (dest : Destination) (hop : NextHop)
    (hb : cfg.ipv4Only = true ∧ dest.ipVersion ≠ IPVersion.v4) :
    addLocalRoute cfg cache bk destVni vni dest hop =
      ([], some "received non-IPv4 route will not be installed in kernel route table (IPv4-only mode)") := by
  rw [addLocalRoute, if_pos hb]

/-- When the IPv4-only guard fires, a remove realization issues no call
and fails. -/
theorem removeLocalRoute_blocked (cfg : ClientOptions) (cache : MetalnetCache)
    (bk : Backend) (destVni vni : Nat) (dest : Destination) (hop : NextHop)
    (hb : cfg.ipv4Only = true ∧ dest.ipVersion ≠ IPVersion.v4) :
    removeLocalRoute cfg cache bk destVni vni dest hop =
      ([], some "received non-IPv4 route will not be installed in kernel route table (IPv4-only mode)") := by
  rw [removeLocalRoute, if_pos hb]

/-- Closed form of the add-side peer loop trace on a standard next hop:
one `CreateRoute` per peer passing the peered-prefix decision, in loop
order. -/
theorem addPeerLoop_trace_standard (cfg : ClientOptions) (cache : MetalnetCache)
    (bk : Backend) (vni : Nat) (dest : Destination) (hop : NextHop)
    (hstd : hop.type = NextHopType.standard)
    (hb : ¬(cfg.ipv4Only = true ∧ dest.ipVersion ≠ IPVersion.v4)) :
    ∀ l : List Nat,
      (addPeerLoop cfg cache bk vni dest hop l).1 =
        (l.filter (fun p => addRouteFlag cache vni dest p)).map
          (fun p => DpdkCall.createRoute p dest.pfx vni hop.targetAddress)
  | [] => rfl
  | peer :: rest => by
    have ih := addPeerLoop_trace_standard cfg cache bk vni dest hop hstd hb rest
    simp only [addPeerLoop, List.filter_cons]
    by_cases hf : addRouteFlag cache vni dest peer = true
    · rw [if_pos hf, if_pos hf,
        addLocalRoute_standard cfg cache bk vni peer dest hop hstd hb]
      simp only [issueCall, List.map_cons, List.singleton_append, ih]
    · rw [if_neg hf, if_neg (by simpa using hf)]
      simpa using ih

/-- Closed form of the remove-side peer loop trace on a standard next
hop: one `DeleteRoute` per peer, unconditionally, in loop order. -/
theorem removePeerLoop_trace_standard (cfg : ClientOptions) (cache : MetalnetCache)
    (bk : Backend) (vni : Nat) (dest : Destination) (hop : NextHop)
    (hstd : hop.type = NextHopType.standard)
    (hb : ¬(cfg.ipv4Only = true ∧ dest.ipVersion ≠ IPVersion.v4)) :
    ∀ l : List Nat,
      (removePeerLoop cfg cache bk vni dest hop l).1 =
        l.map (fun p => DpdkCall.deleteRoute p dest.pfx)
  | [] => rfl
  | peer :: rest => by
    have ih := removePeerLoop_trace_standard cfg cache bk vni dest hop hstd hb rest
    simp only [removePeerLoop, if_pos hstd,
      removeLocalRoute_standard cfg cache bk vni peer dest hop hstd hb]
    simp only [issueCall, List.map_cons, List.singleton_append, ih]

/-- On a non-standard next hop the remove-side peer loop contributes
nothing. -/
theorem removePeerLoop_nonstandard (cfg : ClientOptions) (cache : MetalnetCache)
    (bk : Backend) (vni : Nat) (dest : Destination) (hop : NextHop)
    (hns : hop.type ≠ NextHopType.standard) :
    ∀ l : List Nat, removePeerLoop cfg cache bk vni dest hop l = ([], [])
  | [] => rfl
  | peer :: rest => by
    have ih := removePeerLoop_nonstandard cfg cache bk vni dest hop hns rest
    simp only [removePeerLoop, if_neg hns, ih]
    rfl

/-- Closed form of the full `AddRoute` trace on a standard next hop. -/
theorem addRoute_trace_standard (cfg : ClientOptions) (cache : MetalnetCache)
    (bk : Backend) (vni : Nat) (dest : Destination) (hop : NextHop)
    (hstd : hop.type = NextHopType.standard)
    (hb : ¬(cfg.ipv4Only = true ∧ dest.ipVersion ≠ IPVersion.v4)) :
    (AddRoute cfg cache bk vni dest hop).1 =
      DpdkCall.createRoute vni dest.pfx vni hop.targetAddress ::
        (((cache.peerVnis vni).getD []).filter
            (fun p => addRouteFlag cache vni dest p)).map
          (fun p => DpdkCall.createRoute p dest.pfx vni hop.targetAddress) := by
  simp only [AddRoute, addRouteRun, if_pos hstd,
    addLocalRoute_standard cfg cache bk vni vni dest hop hstd hb,
    addPeerLoop_trace_standard cfg cache bk vni dest hop hstd hb]
  rfl

/-- Closed form of the full `RemoveRoute` trace on a standard next
hop. -/
theorem removeRoute_trace_standard (cfg : ClientOptions) (cache : MetalnetCache)
    (bk : Backend) (vni : Nat) (dest : Destination) (hop : NextHop)
    (hstd : hop.type = NextHopType.standard)
    (hb : ¬(cfg.ipv4Only = true ∧ dest.ipVersion ≠ IPVersion.v4)) :
    (RemoveRoute cfg cache bk vni dest hop).1 =
      DpdkCall.deleteRoute vni dest.pfx ::
        ((cache.peerVnis vni).getD []).map
          (fun p => DpdkCall.deleteRoute p dest.pfx) := by
  simp only [RemoveRoute, removeRouteRun,
    removeLocalRoute_standard cfg cache bk vni vni dest hop hstd hb,
    removePeerLoop_trace_standard cfg cache bk vni dest hop hstd hb]
  rfl

/-- When the IPv4-only guard fires, the add-side peer loop issues no
calls. -/
theorem addPeerLoop_trace_blocked (cfg : ClientOptions) (cache : MetalnetCache)
    (bk : Backend) (vni : Nat) (dest : Destination) (hop : NextHop)
    (hb : cfg.ipv4Only = true ∧ dest.ipVersion ≠ IPVersion.v4) :
    ∀ l : List Nat, (addPeerLoop cfg cache bk vni dest hop l).1 = []
  | [] => rfl
  | peer :: rest => by
    have ih := addPeerLoop_trace_blocked cfg cache bk vni dest hop hb rest
    simp only [addPeerLoop]
    split
    · rw [addLocalRoute_blocked cfg cache bk vni peer dest hop hb]
      simpa using ih
    · simpa using ih

/-- When the IPv4-only guard fires, `AddRoute` issues no calls. -/
theorem addRoute_trace_blocked (cfg : ClientOptions) (cache : MetalnetCache)
    (bk : Backend) (vni : Nat) (dest : Destination) (hop : NextHop)
    (hb : cfg.ipv4Only = true ∧ dest.ipVersion ≠ IPVersion.v4) :
    (AddRoute cfg cache bk vni dest hop).1 = [] := by
  simp only [AddRoute, addRouteRun,
    addLocalRoute_blocked cfg cache bk vni vni dest hop hb]
  split
  · simp [addPeerLoop_trace_blocked cfg cache bk vni dest hop hb]
  · rfl

/-- When the IPv4-only guard fires, the remove-side peer loop issues no
calls. -/
theorem removePeerLoop_trace_blocked (cfg : ClientOptions) (cache : MetalnetCache)
    (bk : Backend) (vni : Nat) (dest : Destination) (hop : NextHop)
    (hb : cfg.ipv4Only = true ∧ dest.ipVersion ≠ IPVersion.v4) :
    ∀ l : List Nat, (removePeerLoop cfg cache bk vni dest hop l).1 = []
  | [] => rfl
  | peer :: rest => by
    have ih := removePeerLoop_trace_blocked cfg cache bk vni dest hop hb rest
    simp only [removePeerLoop]
    split
    · rw [removeLocalRoute_blocked cfg cache bk vni peer dest hop hb]
      simpa using ih
    · simpa using ih

/-- When the IPv4-only guard fires, `RemoveRoute` issues no calls. -/
theorem removeRoute_trace_blocked (cfg : ClientOptions) (cache : MetalnetCache)
    (bk : Backend) (vni : Nat) (dest : Destination) (hop : NextHop)
    (hb : cfg.ipv4Only = true ∧ dest.ipVersion ≠ IPVersion.v4) :
    (RemoveRoute cfg cache bk vni dest hop).1 = [] := by
  simp only [RemoveRoute, removeRouteRun,
    removeLocalRoute_blocked cfg cache bk vni vni dest hop hb]
  simp [removePeerLoop_trace_blocked cfg cache bk vni dest hop hb]

/-- The code-side peer decision of `AddRoute` agrees with the spec-side
wording. -/
theorem addRouteFlag_eq_specAllows (cache : MetalnetCache) (vni : Nat)
    (dest : Destination) (peer : Nat) :
    addRouteFlag cache vni dest peer = specAllows cache vni dest peer := rfl

/-- The joined error is nil exactly when no error string was
collected. -/
theorem joinErrs_eq_none_iff (errs : List String) :
    joinErrs errs = none ↔ errs = [] := by
  unfold joinErrs
  split <;> simp_all

/-- The joined error on a non-empty collection is the newline join of all
collected messages. -/
theorem joinErrs_of_ne (errs : List String) (h : errs ≠ []) :
    joinErrs errs = some (String.intercalate "\n" errs) := by
  unfold joinErrs
  rw [if_neg h]

/-- Erasing a key removes it. -/
theorem lookupRoute_eraseRouteKey_self (st : RouteTable) (k : RouteKey) :
    lookupRoute (eraseRouteKey st k) k = none := by
  induction st with
  | nil => rfl
  | cons e rest ih =>
    rw [eraseRouteKey]
    by_cases he : e.1 = k
    · rw [if_pos he]
      exact ih
    · rw [if_neg he, lookupRoute, if_neg he]
      exact ih

/-- Erasing a key leaves every other key unchanged. -/
theorem lookupRoute_eraseRouteKey_ne (st : RouteTable) (k k' : RouteKey)
    (h : k' ≠ k) : lookupRoute (eraseRouteKey st k) k' = lookupRoute st k' := by
  induction st with
  | nil => rfl
  | cons e rest ih =>
    rw [eraseRouteKey]
    by_cases he : e.1 = k
    · rw [if_pos he, lookupRoute, if_neg (by rw [he]; exact fun hk => h hk.symm)]
      exact ih
    · rw [if_neg he, lookupRoute, lookupRoute]
      by_cases he' : e.1 = k'
      · rw [if_pos he', if_pos he']
      · rw [if_neg he', if_neg he']
        exact ih

/-- Inserting at a key leaves every other key unchanged. -/
theorem lookupRoute_insertRoute_ne (st : RouteTable) (k k' : RouteKey)
    (v : RouteVal) (h : k' ≠ k) :
    lookupRoute (insertRoute st k v) k' = lookupRoute st k' := by
  rw [insertRoute]
  by_cases hs : (lookupRoute st k).isSome
  · rw [if_pos hs]
  · rw [if_neg hs, lookupRoute, if_neg (fun hk => h hk.symm)]

/-- A call not keyed at `k` leaves the lookup at `k` unchanged. -/
theorem lookupRoute_applyCall_of_key_ne (st : RouteTable) (c : DpdkCall)
    (k : RouteKey) (h : callKey c ≠ some k) :
    lookupRoute (applyCall st c) k = lookupRoute st k := by
  cases c with
  | createRoute w q nhV nhA =>
    refine lookupRoute_insertRoute_ne st (w, q) k _ (fun hk => h ?_)
    rw [callKey, hk]
  | deleteRoute w q =>
    refine lookupRoute_eraseRouteKey_ne st (w, q) k (fun hk => h ?_)
    rw [callKey, hk]
  | createLBTarget _ _ => rfl
  | deleteLBTarget _ _ => rfl
  | createNat _ _ _ _ _ => rfl
  | deleteNat _ _ _ _ _ => rfl

/-- A trace with no call keyed at `k` leaves the lookup at `k`
unchanged. -/
theorem lookupRoute_applyTrace_of_key_ne (tr : List DpdkCall) (st : RouteTable)
    (k : RouteKey) (h : ∀ c ∈ tr, callKey c ≠ some k) :
    lookupRoute (applyTrace st tr) k = lookupRoute st k := by
  induction tr generalizing st with
  | nil => rfl
  | cons c rest ih =>
    have : applyTrace st (c :: rest) = applyTrace (applyCall st c) rest := rfl
    rw [this, ih (applyCall st c) (fun c' hc' => h c' (List.mem_cons_of_mem c hc')),
      lookupRoute_applyCall_of_key_ne st c k (h c (List.mem_cons_self c rest))]

/-- A route deletion preserves the absence of any key. -/
theorem lookupRoute_applyCall_delete_none (st : RouteTable) (c : DpdkCall)
    (k : RouteKey) (hdel : isDeleteCall c) (h : lookupRoute st k = none) :
    lookupRoute (applyCall st c) k = none := by
  cases c with
  | deleteRoute w q =>
    by_cases hk : k = (w, q)
    · rw [hk]
      exact lookupRoute_eraseRouteKey_self st (w, q)
    · rw [applyCall, lookupRoute_eraseRouteKey_ne st (w, q) k hk]
      exact h
  | createRoute _ _ _ _ => exact False.elim hdel
  | createLBTarget _ _ => exact h
  | deleteLBTarget _ _ => exact h
  | createNat _ _ _ _ _ => exact h
  | deleteNat _ _ _ _ _ => exact h

/-- A trace of route deletions preserves the absence of any key. -/
theorem lookupRoute_applyTrace_deletes_none (tr : List DpdkCall)
    (st : RouteTable) (k : RouteKey) (hdel : ∀ c ∈ tr, isDeleteCall c)
    (h : lookupRoute st k = none) :
    lookupRoute (applyTrace st tr) k = none := by
  induction tr generalizing st with
  | nil => exact h
  | cons c rest ih =>
    have hstep : applyTrace st (c :: rest) = applyTrace (applyCall st c) rest := rfl
    rw [hstep]
    exact ih (applyCall st c) (fun c' hc' => hdel c' (List.mem_cons_of_mem c hc'))
      (lookupRoute_applyCall_delete_none st c k (hdel c (List.mem_cons_self c rest)) h)

/-- After a trace of route deletions containing the deletion of `(w, q)`,
the key `(w, q)` is absent. -/
theorem lookupRoute_applyTrace_deletes_mem (tr : List DpdkCall)
    (st : RouteTable) (w : Nat) (q : IPPrefix)
    (hdel : ∀ c ∈ tr, isDeleteCall c)
    (hmem : DpdkCall.deleteRoute w q ∈ tr) :
    lookupRoute (applyTrace st tr) (w, q) = none := by
  induction tr generalizing st with
  | nil => exact absurd hmem (List.not_mem_nil _)
  | cons c rest ih =>
    have hstep : applyTrace st (c :: rest) = applyTrace (applyCall st c) rest := rfl
    rw [hstep]
    rcases List.mem_cons.mp hmem with hc | hc
    · exact lookupRoute_applyTrace_deletes_none rest (applyCall st c) (w, q)
        (fun c' hc' => hdel c' (List.mem_cons_of_mem c hc'))
        (by rw [← hc, applyCall]; exact lookupRoute_eraseRouteKey_self st (w, q))
    · exact ih (applyCall st c) (fun c' hc' => hdel c' (List.mem_cons_of_mem c hc')) hc

/-- Applying a concatenated trace applies the parts in order. -/
theorem applyTrace_append (st : RouteTable) (t₁ t₂ : List DpdkCall) :
    applyTrace st (t₁ ++ t₂) = applyTrace (applyTrace st t₁) t₂ := by
  simp [applyTrace, List.foldl_append]

/-- The deletion condition of the cleanup loop, read through the cache,
agrees with the amended staleness predicate. -/
theorem cleanupCond_eq_specStale (cache : MetalnetCache) (vni : Nat)
    (r : RouteItem) :
    cleanupCond vni ((cache.peerVnis vni).getD []) (cache.peerVnis vni).isSome r =
      specStale cache vni r := by
  cases h : cache.peerVnis vni <;> simp [cleanupCond, specStale, h]

/-- Under an always-succeeding backend, the cleanup loop deletes exactly
the routes matching its condition, in listing order, and succeeds. -/
theorem cleanupLoop_bkOK (vni : Nat) (set : List Nat) (ok : Bool) :
    ∀ routes : List RouteItem,
      cleanupLoop bkOK vni set ok routes =
        ((routes.filter (fun r => cleanupCond vni set ok r)).map
          (fun r => DpdkCall.deleteRoute vni r.pfx), none)
  | [] => rfl
  | r :: rest => by
    have ih := cleanupLoop_bkOK vni set ok rest
    simp only [cleanupLoop, List.filter_cons]
    by_cases hc : cleanupCond vni set ok r = true
    · simp only [if_pos hc, hc, if_true]
      simp [bkOK, ih]
    · simp only [if_neg hc, hc]
      simpa using ih

/-- The cleanup loop stops at the first failing deletion: the issued
calls are the successful deletions before it plus the failing one, and
the wrapped backend error is returned. -/
theorem cleanupLoop_shortcircuit (bk : Backend) (vni : Nat) (set : List Nat)
    (ok : Bool) (e : String) :
    ∀ (pre : List RouteItem) (r : RouteItem) (post : List RouteItem),
      cleanupCond vni set ok r = true →
      bk (.deleteRoute vni r.pfx) = some e →
      (∀ r' ∈ pre, cleanupCond vni set ok r' = true →
        bk (.deleteRoute vni r'.pfx) = none) →
      cleanupLoop bk vni set ok (pre ++ r :: post) =
        ((pre.filter (fun r' => cleanupCond vni set ok r')).map
            (fun r' => DpdkCall.deleteRoute vni r'.pfx) ++
          [DpdkCall.deleteRoute vni r.pfx],
          some ("error deleting route: " ++ e))
  | [], r, post, hcond, hfail, _ => by
    simp only [List.nil_append, cleanupLoop, if_pos hcond, hfail]
    rfl
  | r' :: rest, r, post, hcond, hfail, hpre => by
    have ih := cleanupLoop_shortcircuit bk vni set ok e rest r post hcond hfail
      (fun x hx => hpre x (List.mem_cons_of_mem r' hx))
    by_cases hc : cleanupCond vni set ok r' = true
    · simp only [List.cons_append, cleanupLoop, if_pos hc,
        hpre r' (List.mem_cons_self r' rest) hc, List.filter_cons, hc, if_true,
        List.append_eq]
      rw [ih]
      simp
    · simp only [List.cons_append, cleanupLoop, if_neg hc, List.filter_cons, hc,
        if_false, List.append_eq]
      simpa using ih

/-- Claim C1: a route-add event with a standard next hop (and not
rejected by the IPv4-only guard) is realized locally into `vni` and
additionally into exactly those peer VNIs of `vni` for which either no
peered-prefix allow-list is configured (default-allow) or the destination
address falls within at least one listed prefix (default-deny once a
filter exists); no other network receives a dataplane mutation. -/
theorem claim_C1_add_fanout (cfg : ClientOptions) (cache : MetalnetCache)
    (bk : Backend) (vni : Nat) (dest : Destination) (hop : NextHop)
    (hstd : hop.type = NextHopType.standard)
    (hb : ¬(cfg.ipv4Only = true ∧ dest.ipVersion ≠ IPVersion.v4)) :
    (AddRoute cfg cache bk vni dest hop).1 =
      DpdkCall.createRoute vni dest.pfx vni hop.targetAddress ::
        (((cache.peerVnis vni).getD []).filter
            (fun p => specAllows cache vni dest p)).map
          (fun p => DpdkCall.createRoute p dest.pfx vni hop.targetAddress) :=
  addRoute_trace_standard cfg cache bk vni dest hop hstd hb

/-- Witness for claim C1, on the fan-out example of the specification:
with VNI 100 peered to 200 (no allow-list entry) and 300 (allow-list
10.0.0.0/24), adding 10.0.0.5/32 with a standard hop installs the route
into VNIs 100, 200 and 300. -/
theorem claim_C1_add_fanout_witness :
    exHopStd.type = NextHopType.standard ∧
    ¬(exCfg.ipv4Only = true ∧ exDest5.ipVersion ≠ IPVersion.v4) ∧
    (AddRoute exCfg exCache bkOK 100 exDest5 exHopStd).1 =
      [DpdkCall.createRoute 100 exPfx5 100 ⟨IPVersion.v4, 55⟩,
        DpdkCall.createRoute 200 exPfx5 100 ⟨IPVersion.v4, 55⟩,
        DpdkCall.createRoute 300 exPfx5 100 ⟨IPVersion.v4, 55⟩] :=
  ⟨by decide, by decide,
    (claim_C1_add_fanout exCfg exCache bkOK 100 exDest5 exHopStd (by decide)
      (by decide)).trans (by decide)⟩

/-- Claim C2 (amended): under a successful backend, `cleanupUnpeeredRoutes`
deletes exactly the listed routes whose next-hop VNI differs from the
local VNI and is not in the present peer set; when the peer set is
absent, no route is deleted. -/
theorem claim_C2_cleanup (cache : MetalnetCache) (vni : Nat)
    (routes : List RouteItem) :
    CleanupNotPeeredRoutes cache bkOK vni routes =
      ((routes.filter (fun r => specStale cache vni r)).map
        (fun r => DpdkCall.deleteRoute vni r.pfx), none) := by
  rw [CleanupNotPeeredRoutes,
    cleanupLoop_bkOK vni ((cache.peerVnis vni).getD []) (cache.peerVnis vni).isSome
      routes]
  have hfun : (fun r => cleanupCond vni ((cache.peerVnis vni).getD [])
      (cache.peerVnis vni).isSome r) = (fun r => specStale cache vni r) :=
    funext (fun r => cleanupCond_eq_specStale cache vni r)
  rw [hfun]

/-- Counterexample to claim C2 as stated: with the peer set absent for
VNI 100 and a listed route whose next-hop VNI 400 differs from 100, the
cleanup deletes nothing (the claim asserts every such route is
deleted). -/
theorem claim_C2_counterexample :
    (400 : Nat) ≠ 100 ∧
    exCacheAbsent.peerVnis 100 = none ∧
    CleanupNotPeeredRoutes exCacheAbsent bkOK 100
        [⟨exPfx5, 400, ⟨IPVersion.v4, 1⟩⟩] = ([], none) := by
  decide

/-- Claim C3: a route-remove event with a standard next hop is realized
locally and into every currently peered VNI unconditionally, with no
peered-prefix re-evaluation; a non-standard (load-balancer-target or NAT)
next hop is realized only locally, never into peers. -/
theorem claim_C3_remove_fanout (cfg : ClientOptions) (cache : MetalnetCache)
    (bk : Backend) (vni : Nat) (dest : Destination) (hop : NextHop) :
    (hop.type = NextHopType.standard →
      ¬(cfg.ipv4Only = true ∧ dest.ipVersion ≠ IPVersion.v4) →
      (RemoveRoute cfg cache bk vni dest hop).1 =
        DpdkCall.deleteRoute vni dest.pfx ::
          ((cache.peerVnis vni).getD []).map
            (fun p => DpdkCall.deleteRoute p dest.pfx)) ∧
    (hop.type ≠ NextHopType.standard →
      (RemoveRoute cfg cache bk vni dest hop).1 =
        (removeLocalRoute cfg cache bk vni vni dest hop).1) := by
  constructor
  · intro hstd hb
    exact removeRoute_trace_standard cfg cache bk vni dest hop hstd hb
  · intro hns
    simp only [RemoveRoute, removeRouteRun,
      removePeerLoop_nonstandard cfg cache bk vni dest hop hns
        ((cache.peerVnis vni).getD [])]
    simp

/-- Witness for claim C3: with the example topology (VNI 100 peered to
200 and to 300, the latter with allow-list 10.0.0.0/24), removing
192.168.1.1/32 with a standard hop removes from 100, 200 and 300 even
though 192.168.1.1 is outside the allow-list; and removing with a NAT
hop touches only the local network. -/
theorem claim_C3_remove_fanout_witness :
    (RemoveRoute exCfg exCache bkOK 100 exDest192 exHopStd).1 =
      [DpdkCall.deleteRoute 100 exPfx192, DpdkCall.deleteRoute 200 exPfx192,
        DpdkCall.deleteRoute 300 exPfx192] ∧
    (RemoveRoute exCfg exCache bkOK 100 exDest192
        ⟨NextHopType.nat, ⟨IPVersion.v4, 9⟩, 100, 200⟩).1 =
      (removeLocalRoute exCfg exCache bkOK 100 100 exDest192
        ⟨NextHopType.nat, ⟨IPVersion.v4, 9⟩, 100, 200⟩).1 :=
  ⟨((claim_C3_remove_fanout exCfg exCache bkOK 100 exDest192 exHopStd).1
      (by decide) (by decide)).trans (by decide),
    (claim_C3_remove_fanout exCfg exCache bkOK 100 exDest192
      ⟨NextHopType.nat, ⟨IPVersion.v4, 9⟩, 100, 200⟩).2 (by decide)⟩

/-- Claim C4 (amended): for a load-balancer-target next hop with a
resolved load balancer and a configured preferred-network filter the
target address falls outside of, the add realization returns success
without issuing any dataplane call — but the remove realization does not
consult the filter and issues the delete load-balancer-target call. -/
theorem claim_C4_preferred_network (cfg : ClientOptions) (cache : MetalnetCache)
    (bk : Backend) (vni : Nat) (dest : Destination) (hop : NextHop)
    (pn : IPPrefix) (uid : String)
    (hlb : hop.type = NextHopType.loadbalancerTarget)
    (hpn : cfg.preferredNetwork = some pn)
    (hout : pn.contains hop.targetAddress = false)
    (hsrv : cache.loadBalancerServer vni dest.pfx.addr = some uid)
    (hb : ¬(cfg.ipv4Only = true ∧ dest.ipVersion ≠ IPVersion.v4)) :
    addLocalRoute cfg cache bk vni vni dest hop = ([], none) ∧
    removeLocalRoute cfg cache bk vni vni dest hop =
      issueCall bk (DpdkCall.deleteLBTarget uid hop.targetAddress)
        "error deleting lb target: " := by
  constructor
  · rw [addLocalRoute, if_neg hb, if_pos hlb, hsrv]
    simp [hpn, hout]
  · rw [removeLocalRoute, if_neg hb, if_pos hlb, hsrv]

/-- Witness for claim C4: concrete preferred network 10.0.0.0/24, load
balancer registered for (100, 10.0.0.5), target address 192.168.1.1
outside the preferred network — the add is a silent no-op while the
remove issues the delete call. -/
theorem claim_C4_preferred_network_witness :
    addLocalRoute exCfgPN exCacheLB bkOK 100 100 exDest5 exHopLBout = ([], none) ∧
    removeLocalRoute exCfgPN exCacheLB bkOK 100 100 exDest5 exHopLBout =
      issueCall bkOK (DpdkCall.deleteLBTarget "lb-1" exHopLBout.targetAddress)
        "error deleting lb target: " :=
  claim_C4_preferred_network exCfgPN exCacheLB bkOK 100 exDest5 exHopLBout
    exPfx10 "lb-1" (by decide) (by decide) (by decide) (by decide) (by decide)

/-- Counterexample to claim C4 as stated: on the same input the remove
realization issues a dataplane delete call (the claim asserts both add
and remove return success without issuing any dataplane call). -/
theorem claim_C4_counterexample :
    exCfgPN.preferredNetwork = some exPfx10 ∧
    exPfx10.contains exHopLBout.targetAddress = false ∧
    (removeLocalRoute exCfgPN exCacheLB bkOK 100 100 exDest5 exHopLBout).1 =
      [DpdkCall.deleteLBTarget "lb-1" exHopLBout.targetAddress] := by
  decide

/-- Claim C5: both fan-out operations execute every per-network
realization attempt regardless of backend failures (the issued calls do
not depend on the backend answers), return nil when no error string was
collected, and otherwise return the single aggregate error joining all
collected messages with newlines. -/
theorem claim_C5_error_aggregation (cfg : ClientOptions) (cache : MetalnetCache)
    (b₁ b₂ : Backend) (vni : Nat) (dest : Destination) (hop : NextHop) :
    (AddRoute cfg cache b₁ vni dest hop).1 = (AddRoute cfg cache b₂ vni dest hop).1 ∧
    (RemoveRoute cfg cache b₁ vni dest hop).1 =
      (RemoveRoute cfg cache b₂ vni dest hop).1 ∧
    ((AddRoute cfg cache b₁ vni dest hop).2 = none ↔
      (addRouteRun cfg cache b₁ vni dest hop).2 = []) ∧
    ((addRouteRun cfg cache b₁ vni dest hop).2 ≠ [] →
      (AddRoute cfg cache b₁ vni dest hop).2 =
        some (String.intercalate "\n" (addRouteRun cfg cache b₁ vni dest hop).2)) ∧
    ((RemoveRoute cfg cache b₁ vni dest hop).2 = none ↔
      (removeRouteRun cfg cache b₁ vni dest hop).2 = []) ∧
    ((removeRouteRun cfg cache b₁ vni dest hop).2 ≠ [] →
      (RemoveRoute cfg cache b₁ vni dest hop).2 =
        some (String.intercalate "\n" (removeRouteRun cfg cache b₁ vni dest hop).2)) :=
  ⟨addRoute_fst_indep cfg cache b₁ b₂ vni dest hop,
    removeRoute_fst_indep cfg cache b₁ b₂ vni dest hop,
    joinErrs_eq_none_iff (addRouteRun cfg cache b₁ vni dest hop).2,
    fun h => joinErrs_of_ne (addRouteRun cfg cache b₁ vni dest hop).2 h,
    joinErrs_eq_none_iff (removeRouteRun cfg cache b₁ vni dest hop).2,
    fun h => joinErrs_of_ne (removeRouteRun cfg cache b₁ vni dest hop).2 h⟩

/-- Witness for claim C5, on the partial-failure example: a backend
failing the realization into peer 200 while peer 300 succeeds changes no
issued call (the successful mutations are still attempted) and yields the
aggregate error. -/
theorem claim_C5_error_aggregation_witness :
    (AddRoute exCfg exCache exBkFail 100 exDest5 exHopStd).1 =
      (AddRoute exCfg exCache bkOK 100 exDest5 exHopStd).1 ∧
    (AddRoute exCfg exCache exBkFail 100 exDest5 exHopStd).2 =
      some "error creating route: boom" := by
  have h := claim_C5_error_aggregation exCfg exCache exBkFail bkOK 100 exDest5 exHopStd
  exact ⟨h.1, (h.2.2.2.1 (by decide)).trans (by decide)⟩

/-- Claim C6 (amended): when the destination prefix is not already
installed in the table of the local VNI nor of any current peer, an
`AddRoute` immediately followed by a `RemoveRoute` with identical
standard-hop arguments leaves every route-table lookup unchanged. -/
theorem claim_C6_roundtrip (cfg : ClientOptions) (cache : MetalnetCache)
    (vni : Nat) (dest : Destination) (hop : NextHop) (st : RouteTable)
    (hstd : hop.type = NextHopType.standard)
    (habs : ∀ w ∈ vni :: (cache.peerVnis vni).getD [],
      lookupRoute st (w, dest.pfx) = none) :
    ∀ k, lookupRoute (applyTrace st
        ((AddRoute cfg cache bkOK vni dest hop).1 ++
          (RemoveRoute cfg cache bkOK vni dest hop).1)) k = lookupRoute st k := by
  intro k
  obtain ⟨w, q⟩ := k
  by_cases hb : cfg.ipv4Only = true ∧ dest.ipVersion ≠ IPVersion.v4
  · rw [addRoute_trace_blocked cfg cache bkOK vni dest hop hb,
      removeRoute_trace_blocked cfg cache bkOK vni dest hop hb]
    rfl
  · rw [addRoute_trace_standard cfg cache bkOK vni dest hop hstd hb,
      removeRoute_trace_standard cfg cache bkOK vni dest hop hstd hb,
      applyTrace_append]
    by_cases hk : q = dest.pfx ∧ (w = vni ∨ w ∈ (cache.peerVnis vni).getD [])
    · obtain ⟨hq, hw⟩ := hk
      subst hq
      have hrhs : lookupRoute st (w, dest.pfx) = none := by
        rcases hw with hw | hw
        · exact habs w (by rw [hw]; exact List.mem_cons_self vni _)
        · exact habs w (List.mem_cons_of_mem vni hw)
      rw [hrhs]
      apply lookupRoute_applyTrace_deletes_mem
      · intro c hc
        rcases List.mem_cons.mp hc with rfl | hc
        · trivial
        · obtain ⟨p, _, rfl⟩ := List.mem_map.mp hc
          trivial
      · rcases hw with hw | hw
        · rw [hw]
          exact List.mem_cons_self _ _
        · exact List.mem_cons_of_mem _
            (List.mem_map.mpr ⟨w, hw, rfl⟩)
    · rw [lookupRoute_applyTrace_of_key_ne _ _ _ ?hdel,
        lookupRoute_applyTrace_of_key_ne _ _ _ ?hadd]
      case hadd =>
        intro c hc
        rcases List.mem_cons.mp hc with rfl | hc
        · intro hck
          simp only [callKey, Option.some.injEq, Prod.ext_iff] at hck
          exact hk ⟨hck.2.symm, Or.inl hck.1.symm⟩
        · obtain ⟨p, hp, rfl⟩ := List.mem_map.mp hc
          intro hck
          simp only [callKey, Option.some.injEq, Prod.ext_iff] at hck
          exact hk ⟨hck.2.symm, Or.inr (by
            rw [← hck.1]
            exact (List.mem_filter.mp hp).1)⟩
      case hdel =>
        intro c hc
        rcases List.mem_cons.mp hc with rfl | hc
        · intro hck
          simp only [callKey, Option.some.injEq, Prod.ext_iff] at hck
          exact hk ⟨hck.2.symm, Or.inl hck.1.symm⟩
        · obtain ⟨p, hp, rfl⟩ := List.mem_map.mp hc
          intro hck
          simp only [callKey, Option.some.injEq, Prod.ext_iff] at hck
          exact hk ⟨hck.2.symm, Or.inr (by rw [← hck.1]; exact hp)⟩

/-- Witness for claim C6: the round trip on the empty initial table with
the example topology, checked at the key (100, 10.0.0.5/32). -/
theorem claim_C6_roundtrip_witness :
    lookupRoute (applyTrace []
        ((AddRoute exCfg exCache bkOK 100 exDest5 exHopStd).1 ++
          (RemoveRoute exCfg exCache bkOK 100 exDest5 exHopStd).1)) (100, exPfx5) =
      lookupRoute [] (100, exPfx5) :=
  claim_C6_roundtrip exCfg exCache 100 exDest5 exHopStd [] (by decide)
    (by decide) (100, exPfx5)

/-- Counterexample to claim C6 as stated: VNI 300 is peered to 100 under
the allow-list 10.0.0.0/24, which excludes 192.168.1.1, and already holds
a route for 192.168.1.1/32; adding then removing 192.168.1.1/32 from VNI
100 deletes that pre-existing route, so the route set is not restored. -/
theorem claim_C6_counterexample :
    lookupRoute (applyTrace exSt0
        ((AddRoute exCfg exCache bkOK 100 exDest192 exHopStd).1 ++
          (RemoveRoute exCfg exCache bkOK 100 exDest192 exHopStd).1))
        (300, exPfx192) ≠
      lookupRoute exSt0 (300, exPfx192) := by
  decide

/-- Claim C7 (amended): every translation-layer operation except
`ListPrefixes` converts a non-zero backend status code of its response
into a typed status error carrying that code and the backend message. -/
theorem claim_C7_status_errors (st : DpStatus) (h : st.error ≠ 0)
    (pi : ProtoInterface) (ia : Interface) (ur : String) (uidA : String)
    (addrS : String) (vip : VirtualIP) (p : PrefixObj) (r : TLRoute) :
    GetInterface ⟨st, pi⟩ = .error (.statusError st.error st.message) ∧
    CreateInterface ia ⟨st, ur⟩ = .error (.statusError st.error st.message) ∧
    DeleteInterface st = .error (.statusError st.error st.message) ∧
    GetVirtualIP uidA ⟨st, addrS⟩ = .error (.statusError st.error st.message) ∧
    CreateVirtualIP vip ⟨st⟩ = .error (.statusError st.error st.message) ∧
    DeleteVirtualIP st = .error (.statusError st.error st.message) ∧
    CreatePrefix p ⟨st⟩ = .error (.statusError st.error st.message) ∧
    DeletePrefix st = .error (.statusError st.error st.message) ∧
    CreateRouteTL r st = .error (.statusError st.error st.message) ∧
    DeleteRouteTL st = .error (.statusError st.error st.message) := by
  refine ⟨?_, ?_, ?_, ?_, ?_, ?_, ?_, ?_, ?_, ?_⟩ <;>
    simp [GetInterface, CreateInterface, DeleteInterface, GetVirtualIP,
      CreateVirtualIP, DeleteVirtualIP, CreatePrefix, DeletePrefix,
      CreateRouteTL, DeleteRouteTL, h]

/-- Witness for claim C7 at the concrete status (code 3, message
"boom"). -/
theorem claim_C7_status_errors_witness :
    GetInterface ⟨⟨3, "boom"⟩, ⟨"i1", 5, "eth0", "10.0.0.1", "10.0.0.2", "10.0.0.3"⟩⟩ =
        .error (.statusError 3 "boom") ∧
    CreateInterface
        ⟨"i1", ⟨5, "eth0", ⟨IPVersion.v4, 1⟩, ⟨IPVersion.v4, 2⟩⟩, ⟨⟨IPVersion.v4, 3⟩⟩⟩
        ⟨⟨3, "boom"⟩, "10.0.0.3"⟩ = .error (.statusError 3 "boom") ∧
    DeleteInterface ⟨3, "boom"⟩ = .error (.statusError 3 "boom") ∧
    GetVirtualIP "u1" ⟨⟨3, "boom"⟩, "10.0.0.4"⟩ = .error (.statusError 3 "boom") ∧
    CreateVirtualIP ⟨"u1", ⟨IPVersion.v4, 4⟩⟩ ⟨⟨3, "boom"⟩⟩ =
        .error (.statusError 3 "boom") ∧
    DeleteVirtualIP ⟨3, "boom"⟩ = .error (.statusError 3 "boom") ∧
    CreatePrefix ⟨"u1", exPfx10⟩ ⟨⟨3, "boom"⟩⟩ = .error (.statusError 3 "boom") ∧
    DeletePrefix ⟨3, "boom"⟩ = .error (.statusError 3 "boom") ∧
    CreateRouteTL ⟨100, ⟨exPfx5, ⟨200, ⟨IPVersion.v4, 6⟩⟩⟩⟩ ⟨3, "boom"⟩ =
        .error (.statusError 3 "boom") ∧
    DeleteRouteTL ⟨3, "boom"⟩ = .error (.statusError 3 "boom") :=
  claim_C7_status_errors ⟨3, "boom"⟩ (by decide)
    ⟨"i1", 5, "eth0", "10.0.0.1", "10.0.0.2", "10.0.0.3"⟩
    ⟨"i1", ⟨5, "eth0", ⟨IPVersion.v4, 1⟩, ⟨IPVersion.v4, 2⟩⟩, ⟨⟨IPVersion.v4, 3⟩⟩⟩
    "10.0.0.3" "u1" "10.0.0.4" ⟨"u1", ⟨IPVersion.v4, 4⟩⟩ ⟨"u1", exPfx10⟩
    ⟨100, ⟨exPfx5, ⟨200, ⟨IPVersion.v4, 6⟩⟩⟩⟩

/-- Counterexample to claim C7 as stated: `ListPrefixes` returns success
on a response carrying non-zero status code 7 — the status is never
inspected on this path, so the non-zero code is silently swallowed. -/
theorem claim_C7_counterexample :
    (7 : Nat) ≠ 0 ∧
    ListPrefixes "u1" ⟨⟨7, "boom"⟩, []⟩ = Except.ok [] :=
  ⟨by decide, rfl⟩

/-- Claim C8 (code bug): on a response whose primary IPv6 address field
is syntactically invalid but whose primary IPv4 address field is valid,
the interface conversion succeeds instead of failing with a parse error,
and the returned primary IPv6 address is the parse of the primary IPv4
address field (the source parses `GetPrimaryIPv4Address()` twice). -/
theorem claim_C8_ipv6_field_bug :
    parseAddr "bogus" = none ∧
    dpdkInterfaceToInterface ⟨"i1", 5, "eth0", "10.0.0.1", "bogus", "192.0.2.1"⟩ =
      Except.ok ⟨"i1", ⟨5, "eth0", ⟨IPVersion.v4, 167772161⟩, ⟨IPVersion.v4, 167772161⟩⟩,
        ⟨⟨IPVersion.v4, 3221225985⟩⟩⟩ ∧
    GetInterface ⟨⟨0, ""⟩, ⟨"i1", 5, "eth0", "10.0.0.1", "bogus", "192.0.2.1"⟩⟩ =
      Except.ok ⟨"i1", ⟨5, "eth0", ⟨IPVersion.v4, 167772161⟩, ⟨IPVersion.v4, 167772161⟩⟩,
        ⟨⟨IPVersion.v4, 3221225985⟩⟩⟩ := by
  refine ⟨by decide, rfl, rfl⟩

/-- Claim C9 (amended): the translation-layer delete request built from a
route carries the full triple — its wire message contains the next-hop
VNI and next-hop address of the route — while the realization engine
withdraws a standard route by (VNI, destination prefix) only: any two
standard next hops produce the same delete call, which carries no
next-hop component. -/
theorem claim_C9_delete_identification :
    (∀ r : TLRoute,
      (routeToVNIRouteMsg r).route.nexthopVNI = r.spec.nextHop.vni ∧
      (routeToVNIRouteMsg r).route.nexthopAddress = r.spec.nextHop.address) ∧
    (∀ (cfg : ClientOptions) (cache : MetalnetCache) (bk : Backend) (vni : Nat)
        (dest : Destination) (h₁ h₂ : NextHop),
      h₁.type = NextHopType.standard → h₂.type = NextHopType.standard →
      (removeLocalRoute cfg cache bk vni vni dest h₁).1 =
          (removeLocalRoute cfg cache bk vni vni dest h₂).1 ∧
        (¬(cfg.ipv4Only = true ∧ dest.ipVersion ≠ IPVersion.v4) →
          (removeLocalRoute cfg cache bk vni vni dest h₁).1 =
            [DpdkCall.deleteRoute vni dest.pfx])) := by
  constructor
  · intro r
    exact ⟨rfl, rfl⟩
  · intro cfg cache bk vni dest h₁ h₂ hs₁ hs₂
    constructor
    · by_cases hb : cfg.ipv4Only = true ∧ dest.ipVersion ≠ IPVersion.v4
      · rw [removeLocalRoute_blocked cfg cache bk vni vni dest h₁ hb,
          removeLocalRoute_blocked cfg cache bk vni vni dest h₂ hb]
      · rw [removeLocalRoute_standard cfg cache bk vni vni dest h₁ hs₁ hb,
          removeLocalRoute_standard cfg cache bk vni vni dest h₂ hs₂ hb]
    · intro hb
      rw [removeLocalRoute_standard cfg cache bk vni vni dest h₁ hs₁ hb]
      rfl

/-- Witness for claim C9: the wire delete message of a concrete route
carries its next-hop fields, and two concrete standard hops with
different target addresses yield the identical engine delete call. -/
theorem claim_C9_delete_identification_witness :
    ((routeToVNIRouteMsg ⟨100, ⟨exPfx5, ⟨200, ⟨IPVersion.v4, 6⟩⟩⟩⟩).route.nexthopVNI =
        200 ∧
      (routeToVNIRouteMsg ⟨100, ⟨exPfx5, ⟨200, ⟨IPVersion.v4, 6⟩⟩⟩⟩).route.nexthopAddress =
        ⟨IPVersion.v4, 6⟩) ∧
    ((removeLocalRoute exCfg exCache bkOK 100 100 exDest192
          ⟨NextHopType.standard, ⟨IPVersion.v4, 1⟩, 0, 0⟩).1 =
        (removeLocalRoute exCfg exCache bkOK 100 100 exDest192
          ⟨NextHopType.standard, ⟨IPVersion.v4, 2⟩, 0, 0⟩).1 ∧
      (removeLocalRoute exCfg exCache bkOK 100 100 exDest192
          ⟨NextHopType.standard, ⟨IPVersion.v4, 1⟩, 0, 0⟩).1 =
        [DpdkCall.deleteRoute 100 exPfx192]) :=
  ⟨claim_C9_delete_identification.1 ⟨100, ⟨exPfx5, ⟨200, ⟨IPVersion.v4, 6⟩⟩⟩⟩,
    (claim_C9_delete_identification.2 exCfg exCache bkOK 100 exDest192
        ⟨NextHopType.standard, ⟨IPVersion.v4, 1⟩, 0, 0⟩
        ⟨NextHopType.standard, ⟨IPVersion.v4, 2⟩, 0, 0⟩ (by decide) (by decide)).1,
    ((claim_C9_delete_identification.2 exCfg exCache bkOK 100 exDest192
        ⟨NextHopType.standard, ⟨IPVersion.v4, 1⟩, 0, 0⟩
        ⟨NextHopType.standard, ⟨IPVersion.v4, 2⟩, 0, 0⟩ (by decide) (by decide)).2
      (by decide))⟩

/-- Counterexample to claim C9 as stated: two standard next hops with
different next-hop addresses produce the identical delete request, which
consists of the table VNI and the destination prefix only — the next hop
of the withdrawn route is not part of the delete call, so two routes for
the same destination prefix with different next hops are not
distinguished at engine-level deletion. -/
theorem claim_C9_counterexample :
    (⟨IPVersion.v4, 1⟩ : IPAddr) ≠ ⟨IPVersion.v4, 2⟩ ∧
    (removeLocalRoute exCfg exCache bkOK 100 100 exDest192
        ⟨NextHopType.standard, ⟨IPVersion.v4, 1⟩, 0, 0⟩).1 =
      [DpdkCall.deleteRoute 100 exPfx192] ∧
    (removeLocalRoute exCfg exCache bkOK 100 100 exDest192
        ⟨NextHopType.standard, ⟨IPVersion.v4, 2⟩, 0, 0⟩).1 =
      [DpdkCall.deleteRoute 100 exPfx192] := by
  decide

/-- Claim C10: a cleanup pass returns the first failing deletion error
immediately — the issued calls are exactly the successful stale-route
deletions preceding the failure plus the failing delete itself; routes
after the failing one are neither examined nor deleted. -/
theorem claim_C10_cleanup_shortcircuit (cache : MetalnetCache) (bk : Backend)
    (vni : Nat) (pre : List RouteItem) (r : RouteItem) (post : List RouteItem)
    (e : String)
    (hcond : cleanupCond vni ((cache.peerVnis vni).getD [])
      (cache.peerVnis vni).isSome r = true)
    (hfail : bk (DpdkCall.deleteRoute vni r.pfx) = some e)
    (hpre : ∀ r' ∈ pre,
      cleanupCond vni ((cache.peerVnis vni).getD [])
        (cache.peerVnis vni).isSome r' = true →
      bk (DpdkCall.deleteRoute vni r'.pfx) = none) :
    CleanupNotPeeredRoutes cache bk vni (pre ++ r :: post) =
      ((pre.filter (fun r' => cleanupCond vni ((cache.peerVnis vni).getD [])
            (cache.peerVnis vni).isSome r')).map
          (fun r' => DpdkCall.deleteRoute vni r'.pfx) ++
        [DpdkCall.deleteRoute vni r.pfx],
        some ("error deleting route: " ++ e)) :=
  cleanupLoop_shortcircuit bk vni ((cache.peerVnis vni).getD [])
    (cache.peerVnis vni).isSome e pre r post hcond hfail hpre

/-- Witness for claim C10: with peer set {200, 300} for VNI 100, listed
routes [to 200 (kept), to 400 at 10.0.0.0/24 (stale, deleted), to 400 at
192.168.1.1/32 (stale, delete fails), to 500 (stale, never reached)], the
cleanup issues exactly the two deletes and returns the wrapped error. -/
theorem claim_C10_cleanup_shortcircuit_witness :
    CleanupNotPeeredRoutes exCache exBkDelFail 100
        ([⟨exPfx5, 200, ⟨IPVersion.v4, 1⟩⟩, ⟨exPfx10, 400, ⟨IPVersion.v4, 1⟩⟩] ++
          ⟨exPfx192, 400, ⟨IPVersion.v4, 1⟩⟩ ::
            [⟨exPfx5, 500, ⟨IPVersion.v4, 1⟩⟩]) =
      ([DpdkCall.deleteRoute 100 exPfx10, DpdkCall.deleteRoute 100 exPfx192],
        some ("error deleting route: " ++ "boom")) :=
  (claim_C10_cleanup_shortcircuit exCache exBkDelFail 100
      [⟨exPfx5, 200, ⟨IPVersion.v4, 1⟩⟩, ⟨exPfx10, 400, ⟨IPVersion.v4, 1⟩⟩]
      ⟨exPfx192, 400, ⟨IPVersion.v4, 1⟩⟩ [⟨exPfx5, 500, ⟨IPVersion.v4, 1⟩⟩] "boom"
      (by decide) (by decide) (by decide)).trans (by decide)

end Metalnet
